import Mathlib

/-! Reading through pointers to dead stack locals: `stack_2.cpp`

Source: `src/en/05_programming_fundamentals/memory_example_3/stack_2.cpp`.

The program calls two functions that each return the address of their own
local `int a`, reads through the returned pointers, and prints what it read
together with the byte distance between the two pointers.

What such a read yields is not fixed by the language, so the three functions
of the source are embedded over an abstract memory semantics (`Platform`):
how a callee's frame is placed, what a store does, what a return does to the
frame, what a read through an address yields, and whether the address can be
read at all.  A read of an address that cannot be read kills the process
(`execute`).  Three semantics are given:

* `oracle`  : the addresses, the values read and the set of readable addresses
  are chosen freely in advance;
* `machine pol` : a call stack whose frame placement and treatment of popped
  storage are fixed by a `Policy`; it also tracks which addresses lie in a
  live frame (`Stack.live`);
* `machine frameReusing` : the configuration the comments of the source
  describe (frames are pushed at the caller's stack top, popped storage keeps
  its contents).
-/

namespace Stack2

/-! ## Standard output -/

/-- The console: the characters still to be read from standard input and the
characters written to standard output so far. -/
structure Console where
  input : List Char
  output : List Char
deriving DecidableEq

/-- Decimal digits of a natural number, most significant first; the fuel
bounds the number of digits and `n + 1` always suffices. -/
def digitsAux : Nat → Nat → List Char → List Char
  | 0, _, acc => acc
  | fuel + 1, n, acc =>
    if n / 10 = 0 then Nat.digitChar (n % 10) :: acc
    else digitsAux fuel (n / 10) (Nat.digitChar (n % 10) :: acc)

/-- The text `operator<<` produces for an integer: an optional minus sign and
the decimal digits. -/
def decimal (n : Int) : List Char :=
  if n < 0 then '-' :: digitsAux (n.natAbs + 1) n.natAbs []
  else digitsAux (n.natAbs + 1) n.natAbs []

/-- Writing an integer: `std::cout << n`. -/
def Console.putInt (io : Console) (n : Int) : Console :=
  { io with output := io.output ++ decimal n }

/-- Ending a line: `std::cout << std::endl` writes a newline (the flush is not
observable here). -/
def Console.endl (io : Console) : Console :=
  { io with output := io.output ++ ['\n'] }

/-- The lines of a text: maximal runs of characters between newlines; a
final newline does not open a further line. -/
def splitLines : List Char → List (List Char)
  | [] => []
  | c :: cs =>
    if c = '\n' then [] :: splitLines cs
    else
      match splitLines cs with
      | [] => [[c]]
      | l :: ls => (c :: l) :: ls

/-- What the program needs from the memory of the machine it runs on.
Addresses are byte addresses; an `int` is read and written as one unit at the
address of its first byte. -/
structure Platform (σ : Type) where
  /-- Entering a function that has one `int` local: the frame is set up and
  the address of the local is fixed. -/
  enter : σ → Nat × σ
  /-- Writing an `int` at an address. -/
  store : Nat → Int → σ → σ
  /-- Returning from the function: its frame is given up. -/
  leave : σ → σ
  /-- Reading an `int` through a pointer. -/
  load : Nat → σ → Int × σ
  /-- Whether the machine serves a read at the address; a read it does not
  serve is a fault that kills the process. -/
  readable : Nat → σ → Bool

/-- The byte distance `(std::byte*) p - (std::byte*) q`, a `std::ptrdiff_t`:
the difference of the two addresses as a signed 64-bit integer, wrapping
around outside `[-2^63, 2^63)`. -/
def byteOffset (p q : Nat) : Int :=
  ((p : Int) - (q : Int) + 2 ^ 63) % 2 ^ 64 - 2 ^ 63

/-! ## The program -/

section Program

variable {σ : Type}

/-- The function `int* stackMemory1() { int a = 1; return &a; }`: the frame is
entered, 1 is stored in the local `a`, and the address of `a` is returned as
the frame is left. -/
def stackMemory1 (M : Platform σ) (s : σ) : Nat × σ :=
  let f := M.enter s
  let s1 := M.store f.1 1 f.2
  (f.1, M.leave s1)

/-- The function `int* stackMemory2() { int a = 2; return &a; }`: the frame is
entered, 2 is stored in the local `a`, and the address of `a` is returned as
the frame is left. -/
def stackMemory2 (M : Platform σ) (s : σ) : Nat × σ :=
  let f := M.enter s
  let s1 := M.store f.1 2 f.2
  (f.1, M.leave s1)

/-- The local variables of `main` once they are all initialised. -/
structure Locals where
  b : Nat
  a1 : Int
  c : Nat
  a2 : Int
  a3 : Int
deriving DecidableEq

/-- A completed run of `main`. -/
structure Run (σ : Type) where
  /-- The value `main` returns. -/
  exit : Int
  /-- The console after the run. -/
  console : Console
  /-- The locals of `main`. -/
  locals : Locals
  /-- Each read through a pointer, in program order: the address read and
  the memory state the read was made in. -/
  reads : List (Nat × σ)
  /-- The memory state at the end. -/
  final : σ

/-- The function `main` of the source. -/
def main (M : Platform σ) (s : σ) (io : Console) : Run σ :=
  let r1 := stackMemory1 M s          -- int* b = stackMemory1();
  let b := r1.1
  let l1 := M.load b r1.2             -- int a1 = *b;
  let a1 := l1.1
  let r2 := stackMemory2 M l1.2       -- int* c = stackMemory2();
  let c := r2.1
  let l2 := M.load c r2.2             -- int a2 = *c;
  let a2 := l2.1
  let l3 := M.load b l2.2             -- int a3 = *b;
  let a3 := l3.1
  let io := (io.putInt a1).endl
  let io := (io.putInt a2).endl
  let io := (io.putInt a3).endl
  let io := (io.putInt (byteOffset b c)).endl
  { exit := 0
    console := io
    locals := { b := b, a1 := a1, c := c, a2 := a2, a3 := a3 }
    reads := [(b, r1.2), (c, r2.2), (b, l2.2)]
    final := l3.2 }

end Program

/-! ## The oracle semantics -/

/-- The part of the behaviour of the call stack that the language leaves
open. -/
structure Policy where
  /-- What a return leaves in the local of the popped frame: `none` keeps the
  contents, `some v` overwrites them with `v`. -/
  scrub : Option Int
  /-- Bytes skipped beyond the caller's stack top before the frame of the
  `n`-th call (counted from 0) is placed. -/
  pad : Nat → Nat

/-- A call stack.  Addresses are byte offsets from the stack base in the
direction of growth; everything below `top` belongs to a live frame. -/
structure Stack where
  /-- First byte beyond the live frames. -/
  top : Nat
  /-- The tops to restore on return, innermost call first. -/
  saved : List Nat
  /-- Number of calls made so far. -/
  calls : Nat
  /-- The last value written at each address. -/
  cells : Nat → Int

/-- Overwriting one cell. -/
def Stack.write (s : Stack) (p : Nat) (v : Int) : Stack :=
  { s with cells := fun q => if q = p then v else s.cells q }

/-- The size of an `int` in bytes. -/
def intSize : Nat := 4

/-- The call stack as a memory semantics.  The frame of a callee holds its
`int` local as its last `intSize` bytes.  Every address can be read, whether
or not it lies in a live frame. -/
def machine (pol : Policy) : Platform Stack where
  enter := fun s =>
    let p := s.top + pol.pad s.calls
    (p, { s with top := p + intSize, saved := s.top :: s.saved, calls := s.calls + 1 })
  store := fun p v s => s.write p v
  leave := fun s =>
    let s1 := match pol.scrub with
      | none => s
      | some v => s.write (s.top - intSize) v
    match s1.saved with
    | [] => s1
    | t :: rest => { s1 with top := t, saved := rest }
  load := fun p s => (s.cells p, s)
  readable := fun _ _ => true

/-- The configuration the comments of the source describe: each frame is
pushed at the caller's current stack top, a return pops the frame without
clearing it, and a read yields the last value written at the address. -/
def frameReusing : Policy := { scrub := none, pad := fun _ => 0 }

/-- A stack whose popped storage is overwritten with `v`. -/
def scrubbing (v : Int) : Policy := { scrub := some v, pad := fun _ => 0 }

/-- A stack that places the frame of the `n`-th call `16 * n` bytes beyond
the caller's top. -/
def shifting : Policy := { scrub := none, pad := fun n => 16 * n }

/-- The text the source's comments say the program prints. -/
def documentedOutput : List Char := ['1', '\n', '2', '\n', '2', '\n', '0', '\n']

/-- The lines written to standard output during a run that started with the
console `io`. -/
def printed {σ : Type} (run : Run σ) (io : Console) : List (List Char) :=
  splitLines (run.console.output.drop io.output.length)

/-- The text of four integers, one per line. -/
def fourLines (w x y z : Int) : List Char :=
  decimal w ++ '\n' :: (decimal x ++ '\n' :: (decimal y ++ '\n' :: (decimal z ++ ['\n'])))

/-! ## Facts about the console -/

theorem digitChar_isDigit (d : Nat) (h : d < 10) : (Nat.digitChar d).isDigit = true := by
  interval_cases d <;> decide

theorem digitsAux_all_isDigit (fuel : Nat) :
    ∀ (n : Nat) (acc : List Char), acc.all Char.isDigit = true →
      (digitsAux fuel n acc).all Char.isDigit = true := by
  induction fuel with
  | zero => intro n acc h; simpa [digitsAux] using h
  | succ k ih =>
    intro n acc h
    have hd : (Nat.digitChar (n % 10)).isDigit = true :=
      digitChar_isDigit _ (Nat.mod_lt _ (by decide))
    have hacc : (Nat.digitChar (n % 10) :: acc).all Char.isDigit = true := by
      simp only [List.all_cons, hd, h, Bool.and_self]
    unfold digitsAux
    split
    · exact hacc
    · exact ih _ _ hacc

theorem digits_all_isDigit (n : Nat) : (digitsAux (n + 1) n []).all Char.isDigit = true :=
  digitsAux_all_isDigit _ _ _ rfl

theorem newline_not_mem_of_all_isDigit (l : List Char) (h : l.all Char.isDigit = true) :
    '\n' ∉ l := by
  intro hm
  have := (List.all_eq_true.mp h) _ hm
  exact absurd this (by decide)

theorem newline_not_mem_decimal (n : Int) : '\n' ∉ decimal n := by
  unfold decimal
  split
  · intro hm
    rcases List.mem_cons.mp hm with h | h
    · exact absurd h (by decide)
    · exact newline_not_mem_of_all_isDigit _ (digits_all_isDigit _) h
  · exact newline_not_mem_of_all_isDigit _ (digits_all_isDigit _)

theorem splitLines_line (l rest : List Char) (h : '\n' ∉ l) :
    splitLines (l ++ '\n' :: rest) = l :: splitLines rest := by
  induction l with
  | nil => simp [splitLines]
  | cons c cs ih =>
    have hc : c ≠ '\n' := fun e => h (e ▸ List.mem_cons_self _ _)
    have hcs : '\n' ∉ cs := fun m => h (List.mem_cons_of_mem _ m)
    have e := ih hcs
    show splitLines (c :: (cs ++ '\n' :: rest)) = (c :: cs) :: splitLines rest
    simp only [splitLines, hc, if_false, e]

theorem splitLines_fourLines (w x y z : Int) :
    splitLines (fourLines w x y z) = [decimal w, decimal x, decimal y, decimal z] := by
  unfold fourLines
  rw [splitLines_line _ _ (newline_not_mem_decimal w),
    splitLines_line _ _ (newline_not_mem_decimal x),
    splitLines_line _ _ (newline_not_mem_decimal y),
    splitLines_line _ _ (newline_not_mem_decimal z)]
  rfl

/-! ## Facts about `main` on any memory semantics -/

theorem main_output {σ : Type} (M : Platform σ) (s : σ) (io : Console) :
    (main M s io).console.output = io.output ++
      fourLines (main M s io).locals.a1 (main M s io).locals.a2 (main M s io).locals.a3
        (byteOffset (main M s io).locals.b (main M s io).locals.c) := by
  simp [main, fourLines, Console.putInt, Console.endl]

theorem printed_eq {σ : Type} (M : Platform σ) (s : σ) (io : Console) :
    printed (main M s io) io =
      [decimal (main M s io).locals.a1, decimal (main M s io).locals.a2,
        decimal (main M s io).locals.a3,
        decimal (byteOffset (main M s io).locals.b (main M s io).locals.c)] := by
  unfold printed
  rw [main_output, List.drop_left, splitLines_fourLines]

/-! ## Facts about the frame-reusing stack -/

theorem frameReusing_locals (s : Stack) (io : Console) :
    (main (machine frameReusing) s io).locals =
      { b := s.top, a1 := 1, c := s.top, a2 := 2, a3 := 2 } := by
  simp [main, stackMemory1, stackMemory2, machine, frameReusing, Stack.write]

theorem scrubbing_locals (v : Int) (s : Stack) (io : Console) :
    (main (machine (scrubbing v)) s io).locals =
      { b := s.top, a1 := v, c := s.top, a2 := v, a3 := v } := by
  simp [main, stackMemory1, stackMemory2, machine, scrubbing, Stack.write, intSize]

theorem shifting_locals (s : Stack) (io : Console) :
    (main (machine shifting) s io).locals =
      { b := s.top + 16 * s.calls, a1 := 1, c := s.top + 16 * (s.calls + 1), a2 := 2, a3 := 1 } := by
  simp [main, stackMemory1, stackMemory2, machine, shifting, Stack.write]

theorem byteOffset_self (p : Nat) : byteOffset p p = 0 := by
  unfold byteOffset
  omega

theorem decimal_zero : decimal 0 = ['0'] := by decide

theorem decimal_one : decimal 1 = ['1'] := by decide

theorem decimal_two : decimal 2 = ['2'] := by decide

theorem frameReusing_printed (s : Stack) (io : Console) :
    printed (main (machine frameReusing) s io) io = [['1'], ['2'], ['2'], ['0']] := by
  rw [printed_eq, frameReusing_locals]
  simp only [byteOffset_self, decimal_zero, decimal_one, decimal_two]

theorem scrubbing_printed (v : Int) (s : Stack) (io : Console) :
    printed (main (machine (scrubbing v)) s io) io =
      [decimal v, decimal v, decimal v, ['0']] := by
  rw [printed_eq, scrubbing_locals]
  simp only [byteOffset_self, decimal_zero]

theorem shifting_printed (s : Stack) (io : Console) :
    printed (main (machine shifting) s io) io = [['1'], ['2'], ['1'], ['-', '1', '6']] := by
  have h : byteOffset (s.top + 16 * s.calls) (s.top + 16 * (s.calls + 1)) = -16 := by
    unfold byteOffset
    omega
  have h16 : decimal (-16) = ['-', '1', '6'] := by decide
  rw [printed_eq, shifting_locals]
  simp only [h, h16, decimal_one, decimal_two]

theorem output_ne_of_printed_ne {σ : Type} (r1 r2 : Run σ) (io : Console)
    (h : printed r1 io ≠ printed r2 io) : r1.console.output ≠ r2.console.output := by
  intro e
  exact h (by unfold printed; rw [e])

/-! ## The claims -/

/-- C3: the output of `main` is not determined by the program: from every
starting state, the stack that keeps and reuses popped frames, the stack that
overwrites popped storage with 0, and the stack that places the second frame
at another address make `main` write three pairwise different outputs. -/
theorem main_output_not_determined (s : Stack) (io : Console) :
    (main (machine frameReusing) s io).console.output ≠
        (main (machine (scrubbing 0)) s io).console.output ∧
      (main (machine frameReusing) s io).console.output ≠
        (main (machine shifting) s io).console.output ∧
      (main (machine (scrubbing 0)) s io).console.output ≠
        (main (machine shifting) s io).console.output ∧
      printed (main (machine frameReusing) s io) io ≠
        printed (main (machine (scrubbing 0)) s io) io ∧
      printed (main (machine frameReusing) s io) io ≠
        printed (main (machine shifting) s io) io := by
  have h1 : printed (main (machine frameReusing) s io) io ≠
      printed (main (machine (scrubbing 0)) s io) io := by
    rw [frameReusing_printed, scrubbing_printed, decimal_zero]
    decide
  have h2 : printed (main (machine frameReusing) s io) io ≠
      printed (main (machine shifting) s io) io := by
    rw [frameReusing_printed, shifting_printed]
    decide
  have h3 : printed (main (machine (scrubbing 0)) s io) io ≠
      printed (main (machine shifting) s io) io := by
    rw [scrubbing_printed, shifting_printed, decimal_zero]
    decide
  exact ⟨output_ne_of_printed_ne _ _ io h1, output_ne_of_printed_ne _ _ io h2,
    output_ne_of_printed_ne _ _ io h3, h1, h2⟩

/-- C4: on the frame-reusing stack, from every starting state, `main` appends
exactly the four lines "1", "2", "2", "0" to standard output. -/
theorem main_frameReusing_output (s : Stack) (io : Console) :
    (main (machine frameReusing) s io).console.output = io.output ++ documentedOutput ∧
      printed (main (machine frameReusing) s io) io = [['1'], ['2'], ['2'], ['0']] := by
  refine ⟨?_, frameReusing_printed s io⟩
  rw [main_output, frameReusing_locals]
  simp only [byteOffset_self, fourLines, decimal_zero, decimal_one, decimal_two]
  rfl

/-- C5: on the frame-reusing stack, `stackMemory1` and `stackMemory2` called
one after the other from the same state of the caller return the same
address; in `main`, `b` equals `c`, the byte offset is 0 and the fourth line
written is "0". -/
theorem frameReusing_same_address (s : Stack) (io : Console) :
    (stackMemory2 (machine frameReusing) (stackMemory1 (machine frameReusing) s).2).1 =
        (stackMemory1 (machine frameReusing) s).1 ∧
      (main (machine frameReusing) s io).locals.b =
        (main (machine frameReusing) s io).locals.c ∧
      byteOffset (main (machine frameReusing) s io).locals.b
        (main (machine frameReusing) s io).locals.c = 0 ∧
      (printed (main (machine frameReusing) s io) io)[3]? = some ['0'] := by
  refine ⟨?_, ?_, ?_, ?_⟩
  · simp [stackMemory1, stackMemory2, machine, frameReusing, Stack.write]
  · rw [frameReusing_locals]
  · rw [frameReusing_locals]; exact byteOffset_self _
  · rw [frameReusing_printed]
    rfl

/-- C6: on the frame-reusing stack, the second read through `b`, made after
the call to `stackMemory2`, yields 2 (what `stackMemory2` stored) and not the
1 that `stackMemory1` stored there and that the first read through `b`
yielded; the third line written is "2". -/
theorem frameReusing_second_read_of_b (s : Stack) (io : Console) :
    (main (machine frameReusing) s io).locals.a3 = 2 ∧
      (main (machine frameReusing) s io).locals.a3 ≠
        (main (machine frameReusing) s io).locals.a1 ∧
      (main (machine frameReusing) s io).locals.a3 =
        (main (machine frameReusing) s io).locals.a2 ∧
      (printed (main (machine frameReusing) s io) io)[2]? = some ['2'] := by
  refine ⟨?_, ?_, ?_, ?_⟩
  · rw [frameReusing_locals]
  · rw [frameReusing_locals]
    show (2 : Int) ≠ 1
    decide
  · rw [frameReusing_locals]
  · rw [frameReusing_printed]
    rfl

/-- C7: on the frame-reusing stack, a read through the pointer a callee
returned, made right after the call, yields the value the callee stored in its
local: 1 after `stackMemory1`, 2 after `stackMemory2`; in `main`, `a1` is 1,
`a2` is 2 and the first two lines written are "1" and "2". -/
theorem frameReusing_read_after_call (s : Stack) (io : Console) :
    ((machine frameReusing).load (stackMemory1 (machine frameReusing) s).1
        (stackMemory1 (machine frameReusing) s).2).1 = 1 ∧
      ((machine frameReusing).load (stackMemory2 (machine frameReusing) s).1
        (stackMemory2 (machine frameReusing) s).2).1 = 2 ∧
      (main (machine frameReusing) s io).locals.a1 = 1 ∧
      (main (machine frameReusing) s io).locals.a2 = 2 ∧
      (printed (main (machine frameReusing) s io) io).take 2 = [['1'], ['2']] := by
  refine ⟨?_, ?_, ?_, ?_, ?_⟩
  · simp [stackMemory1, machine, frameReusing, Stack.write]
  · simp [stackMemory2, machine, frameReusing, Stack.write]
  · rw [frameReusing_locals]
  · rw [frameReusing_locals]
  · rw [frameReusing_printed]
    rfl

end Stack2
